import Mathlib

/-!
# forklift: platform-selector parsing and the root command

Shallow embedding of `cmd/root.go`.

* Go strings are modelled by Lean `String` (a list of characters).  The only
  separator the program ever splits on is the ASCII character `/`, which in
  UTF-8 is one byte that occurs in the encoding of no other character, so
  splitting the characters at `/` is splitting the bytes at `/`.
* `fmt.Errorf` with one `%s` verb is the concatenation of the text before the
  verb, the argument and the text after it; an `error` is its message.
* A Go run-time panic (index out of range) is modelled by the outer `Option`
  of a result: `none` is a panic, `some r` is a normal return of `r`.
* A Go return value `(*v1.Platform, error)` is the pair
  `Option Platform × Option String`: `none` is `nil` on either side.
-/

set_option autoImplicit false

namespace Forklift

/-! ## Data model -/

/-- The fields of `v1.Platform` that `parsePlatform` assigns.  A fresh
`&v1.Platform{}` has every field equal to the empty string. -/
structure Platform where
  OS : String := ""
  Architecture : String := ""
  Variant : String := ""
  deriving DecidableEq

/-- Source comment: `Config stores our configuration for mirroring`
(`cmd/root.go`, l. 32). -/
structure Config where
  Source : String
  Dest : String
  Verbose : Bool
  Platform : String
  deriving DecidableEq

/-! ## Library functions used by the program -/

/-- Character-level worker of `Split`: the pieces of `s` between the
occurrences of `sep`, in order.  A string without `sep` is its own single
piece; `n` occurrences give `n + 1` pieces, empty pieces included. -/
def splitChars (sep : Char) : List Char → List (List Char)
  | [] => [[]]
  | c :: cs =>
    if c = sep then [] :: splitChars sep cs
    else
      match splitChars sep cs with
      | [] => [[c]]
      | p :: ps => (c :: p) :: ps

/-- Go `strings.Split(s, sep)` for a one-character separator, the only way
the program calls it (`strings.Split(platform, "/")`). -/
def Split (s : String) (sep : Char) : List String :=
  (splitChars sep s.data).map String.mk

/-! ## `parsePlatform` -/

/-- The error built at l. 50:
`fmt.Errorf("failed to parse platform '%s': expected format os/arch[/variant]", platform)`. -/
def errExpectedFormat (platform : String) : String :=
  "failed to parse platform \x27" ++ platform ++ "\x27: expected format os/arch[/variant]"

/-- The error built at l. 53:
`fmt.Errorf("failed to parse platform '%s': too many slashes", platform)`. -/
def errTooManySlashes (platform : String) : String :=
  "failed to parse platform \x27" ++ platform ++ "\x27: too many slashes"

/-- Source comment: `parsePlatform parses the platform flag in the format
"os/arch[/variant]"` (`cmd/root.go`, l. 43-63).  Every index expression `parts[i]` is a checked
access: an index outside `parts` makes the whole call `none` (a panic). -/
def parsePlatform (platform : String) : Option (Option Platform × Option String) :=
  if platform = "all" then
    some (none, none)
  else
    let p : Platform := {}
    let parts := Split platform '/'
    if parts.length < 2 then
      some (none, some (errExpectedFormat platform))
    else if parts.length > 3 then
      some (none, some (errTooManySlashes platform))
    else do
      let os ← parts[0]?
      let p := { p with OS := os }
      let arch ← parts[1]?
      let p := { p with Architecture := arch }
      let p ← if parts.length > 2 then do
                let variant ← parts[2]?
                pure { p with Variant := variant }
              else pure p
      pure (some p, none)

/-! ## The root command -/

/-- What `RunE` does to the outside world, in the order it does it. -/
inductive Event where
  /-- The call `logs.Progress.SetOutput(os.Stdout)`. -/
  | progressToStdout
  /-- The call `logs.Debug.SetOutput(os.Stderr)`. -/
  | debugToStderr
  /-- The call `parsePlatform(conf.Platform)`, with its argument. -/
  | parsePlatformCall (platform : String)
  /-- The call `crane.Copy(src, dst, crane.WithPlatform(platform))`. -/
  | copyCall (src dst : String) (platform : Option Platform)
  deriving DecidableEq

/-- The state `RunE` runs in: the package variable `conf` and the trace of
events so far. -/
structure State where
  conf : Config
  trace : List Event
  deriving DecidableEq

/-- The error returned at l. 81. -/
def errMissingArgs : String := "Please provide a source and dest registry\n"

/-- The function `rootCmd.RunE` (`cmd/root.go`, l. 75-106).  `Copy` stands for the external
`crane.Copy`: it gets the source, the destination and the platform option and
returns its error (`none` for `nil`).  The result is the final state and the
error `RunE` returns; the outer `Option` is `none` on a panic. -/
def RunE (Copy : String → String → Option Platform → Option String)
    (st : State) (args : List String) : Option (State × Option String) :=
  if args.length < 2 then
    some (st, some errMissingArgs)
  else do
    let src ← args[0]?
    let st := { st with conf := { st.conf with Source := src } }
    let dst ← args[1]?
    let st := { st with conf := { st.conf with Dest := dst } }
    let st := { st with trace := st.trace ++ [Event.progressToStdout] }
    let st := if st.conf.Verbose then
                { st with trace := st.trace ++ [Event.debugToStderr] }
              else st
    let st := { st with trace := st.trace ++ [Event.parsePlatformCall st.conf.Platform] }
    let (platform, err) ← parsePlatform st.conf.Platform
    match err with
    | some e => pure (st, some e)
    | none =>
      let st := { st with trace := st.trace ++ [Event.copyCall st.conf.Source st.conf.Dest platform] }
      match Copy st.conf.Source st.conf.Dest platform with
      | some e => pure (st, some e)
      | none => pure (st, none)


/-! ## Lemmas about `splitChars` -/

theorem splitChars_ne_nil (sep : Char) (s : List Char) : splitChars sep s ≠ [] := by
  cases s with
  | nil => simp [splitChars]
  | cons c cs =>
    unfold splitChars
    split
    · simp
    · split <;> simp

theorem splitChars_cons_sep (sep : Char) (cs : List Char) :
    splitChars sep (sep :: cs) = [] :: splitChars sep cs := by
  simp [splitChars]

theorem splitChars_cons_ne (sep c : Char) (cs : List Char) (h : c ≠ sep) :
    ∃ p ps, splitChars sep cs = p :: ps ∧ splitChars sep (c :: cs) = (c :: p) :: ps := by
  cases hsp : splitChars sep cs with
  | nil => exact absurd hsp (splitChars_ne_nil sep cs)
  | cons p ps => exact ⟨p, ps, rfl, by simp [splitChars, h, hsp]⟩

theorem splitChars_length (sep : Char) (s : List Char) :
    (splitChars sep s).length = s.count sep + 1 := by
  induction s with
  | nil => simp [splitChars]
  | cons c cs ih =>
    by_cases h : c = sep
    · subst h
      simp [splitChars_cons_sep, ih]
    · obtain ⟨p, ps, h1, h2⟩ := splitChars_cons_ne sep c cs h
      rw [h2, List.count_cons_of_ne (Ne.symm h), ← ih, h1]
      simp

theorem splitChars_of_not_mem (sep : Char) (a : List Char) (h : sep ∉ a) :
    splitChars sep a = [a] := by
  induction a with
  | nil => simp [splitChars]
  | cons c cs ih =>
    have hc : c ≠ sep := fun e => h (by simp [e])
    have hcs : sep ∉ cs := fun e => h (by simp [e])
    simp [splitChars, hc, ih hcs]

theorem splitChars_append (sep : Char) (a b : List Char) (h : sep ∉ a) :
    splitChars sep (a ++ sep :: b) = a :: splitChars sep b := by
  induction a with
  | nil => simp [splitChars]
  | cons c cs ih =>
    have hc : c ≠ sep := fun e => h (by simp [e])
    have hcs : sep ∉ cs := fun e => h (by simp [e])
    simp [splitChars, hc, ih hcs]

/-- Joining the pieces with the separator gives the string back. -/
theorem splitChars_join (sep : Char) (s : List Char) :
    List.intercalate [sep] (splitChars sep s) = s := by
  induction s with
  | nil => simp [splitChars, List.intercalate]
  | cons c cs ih =>
    by_cases h : c = sep
    · subst h
      rw [splitChars_cons_sep]
      cases hsp : splitChars c cs with
      | nil => exact absurd hsp (splitChars_ne_nil c cs)
      | cons p ps =>
        rw [hsp] at ih
        simpa [List.intercalate, List.intersperse] using ih
    · obtain ⟨p, ps, h1, h2⟩ := splitChars_cons_ne sep c cs h
      rw [h2]
      rw [h1] at ih
      cases ps with
      | nil => simpa [List.intercalate, List.intersperse] using ih
      | cons q qs => simpa [List.intercalate, List.intersperse] using ih

/-- No piece contains the separator. -/
theorem splitChars_not_mem (sep : Char) (s : List Char) :
    ∀ p ∈ splitChars sep s, sep ∉ p := by
  induction s with
  | nil => simp [splitChars]
  | cons c cs ih =>
    by_cases h : c = sep
    · subst h
      rw [splitChars_cons_sep]
      intro p hp
      rcases List.mem_cons.1 hp with rfl | hp
      · simp
      · exact ih p hp
    · obtain ⟨p, ps, h1, h2⟩ := splitChars_cons_ne sep c cs h
      rw [h2]
      rw [h1] at ih
      intro q hq
      rcases List.mem_cons.1 hq with rfl | hq
      · have := ih p (by simp)
        simp [this, Ne.symm h]
      · exact ih q (by simp [hq])

/-! ## `parsePlatform` by the number of pieces -/

theorem all_ne_of_count (s : String) (h : s.data.count '/' ≠ 0) : s ≠ "all" := by
  rintro rfl
  exact h (by decide)

theorem parsePlatform_one_piece (s : String) (hs : s ≠ "all") (a : List Char)
    (h : splitChars '/' s.data = [a]) :
    parsePlatform s = some (none, some (errExpectedFormat s)) := by
  simp [parsePlatform, Split, hs, h]

theorem parsePlatform_two_pieces (s : String) (hs : s ≠ "all") (a b : List Char)
    (h : splitChars '/' s.data = [a, b]) :
    parsePlatform s = some (some ⟨⟨a⟩, ⟨b⟩, ""⟩, none) := by
  simp [parsePlatform, Split, hs, h]

theorem parsePlatform_three_pieces (s : String) (hs : s ≠ "all") (a b c : List Char)
    (h : splitChars '/' s.data = [a, b, c]) :
    parsePlatform s = some (some ⟨⟨a⟩, ⟨b⟩, ⟨c⟩⟩, none) := by
  simp [parsePlatform, Split, hs, h]

theorem parsePlatform_many_pieces (s : String) (hs : s ≠ "all")
    (h : 3 < (splitChars '/' s.data).length) :
    parsePlatform s = some (none, some (errTooManySlashes s)) := by
  have h2 : ¬ (splitChars '/' s.data).length < 2 := by omega
  simp [parsePlatform, Split, hs, h, h2]

/-! ## `parsePlatform` by the shape of the input -/

theorem data_join2 (a b : String) : (a ++ "/" ++ b).data = a.data ++ '/' :: b.data := by
  simp [String.data_append]

theorem data_join3 (a b c : String) :
    (a ++ "/" ++ b ++ "/" ++ c).data = a.data ++ '/' :: (b.data ++ '/' :: c.data) := by
  simp [String.data_append]

theorem exists_join2 (s : String) (h : s.data.count '/' = 1) :
    ∃ a b : String, s = a ++ "/" ++ b ∧ '/' ∉ a.data ∧ '/' ∉ b.data ∧
      splitChars '/' s.data = [a.data, b.data] := by
  have hlen := splitChars_length '/' s.data
  have hjoin := splitChars_join '/' s.data
  have hmem := splitChars_not_mem '/' s.data
  rw [h] at hlen
  match hsp : splitChars '/' s.data, hlen with
  | [p, q], _ =>
    rw [hsp] at hjoin hmem
    refine ⟨⟨p⟩, ⟨q⟩, ?_, hmem p (by simp), hmem q (by simp), rfl⟩
    apply String.ext
    rw [data_join2, ← hjoin]
    simp [List.intercalate, List.intersperse]

theorem exists_join3 (s : String) (h : s.data.count '/' = 2) :
    ∃ a b c : String, s = a ++ "/" ++ b ++ "/" ++ c ∧
      '/' ∉ a.data ∧ '/' ∉ b.data ∧ '/' ∉ c.data ∧
      splitChars '/' s.data = [a.data, b.data, c.data] := by
  have hlen := splitChars_length '/' s.data
  have hjoin := splitChars_join '/' s.data
  have hmem := splitChars_not_mem '/' s.data
  rw [h] at hlen
  match hsp : splitChars '/' s.data, hlen with
  | [p, q, r], _ =>
    rw [hsp] at hjoin hmem
    refine ⟨⟨p⟩, ⟨q⟩, ⟨r⟩, ?_, hmem p (by simp), hmem q (by simp), hmem r (by simp), rfl⟩
    apply String.ext
    rw [data_join3, ← hjoin]
    simp [List.intercalate, List.intersperse]

theorem count_join2 (a b : String) (ha : '/' ∉ a.data) (hb : '/' ∉ b.data) :
    (a ++ "/" ++ b).data.count '/' = 1 := by
  rw [data_join2]
  simp [List.count_eq_zero_of_not_mem ha, List.count_eq_zero_of_not_mem hb]

theorem count_join3 (a b c : String) (ha : '/' ∉ a.data) (hb : '/' ∉ b.data)
    (hc : '/' ∉ c.data) : (a ++ "/" ++ b ++ "/" ++ c).data.count '/' = 2 := by
  rw [data_join3]
  simp [List.count_eq_zero_of_not_mem ha, List.count_eq_zero_of_not_mem hb,
    List.count_eq_zero_of_not_mem hc]

theorem parsePlatform_no_slash (s : String) (hs : s ≠ "all") (h : '/' ∉ s.data) :
    parsePlatform s = some (none, some (errExpectedFormat s)) :=
  parsePlatform_one_piece s hs s.data (splitChars_of_not_mem '/' s.data h)

theorem parsePlatform_join2 (a b : String) (ha : '/' ∉ a.data) (hb : '/' ∉ b.data) :
    parsePlatform (a ++ "/" ++ b) = some (some ⟨a, b, ""⟩, none) := by
  have hs : a ++ "/" ++ b ≠ "all" :=
    all_ne_of_count _ (by rw [count_join2 a b ha hb]; decide)
  have h := parsePlatform_two_pieces (a ++ "/" ++ b) hs a.data b.data
    (by rw [data_join2, splitChars_append _ _ _ ha, splitChars_of_not_mem _ _ hb])
  simpa using h

theorem parsePlatform_join3 (a b c : String) (ha : '/' ∉ a.data) (hb : '/' ∉ b.data)
    (hc : '/' ∉ c.data) :
    parsePlatform (a ++ "/" ++ b ++ "/" ++ c) = some (some ⟨a, b, c⟩, none) := by
  have hs : a ++ "/" ++ b ++ "/" ++ c ≠ "all" :=
    all_ne_of_count _ (by rw [count_join3 a b c ha hb hc]; decide)
  have h := parsePlatform_three_pieces (a ++ "/" ++ b ++ "/" ++ c) hs a.data b.data c.data
    (by rw [data_join3, splitChars_append _ _ _ ha, splitChars_append _ _ _ hb,
      splitChars_of_not_mem _ _ hc])
  simpa using h

theorem parsePlatform_too_many (s : String) (h : 3 ≤ s.data.count '/') :
    parsePlatform s = some (none, some (errTooManySlashes s)) :=
  parsePlatform_many_pieces s (all_ne_of_count s (by omega))
    (by rw [splitChars_length]; omega)

/-- Inversion: a returned descriptor comes from an input with one or two
separators, and its fields are the pieces. -/
theorem parsePlatform_descriptor_inv (s : String) (d : Platform) (e : Option String)
    (h : parsePlatform s = some (some d, e)) :
    (∃ a b : String, s = a ++ "/" ++ b ∧ '/' ∉ a.data ∧ '/' ∉ b.data ∧
        d = ⟨a, b, ""⟩ ∧ e = none) ∨
    (∃ a b c : String, s = a ++ "/" ++ b ++ "/" ++ c ∧
        '/' ∉ a.data ∧ '/' ∉ b.data ∧ '/' ∉ c.data ∧ d = ⟨a, b, c⟩ ∧ e = none) := by
  by_cases hall : s = "all"
  · subst hall
    have hall : parsePlatform "all" = some (none, none) := by decide
    rw [hall] at h
    simp at h
  · rcases Nat.lt_or_ge (s.data.count '/') 3 with hlt | hge
    · have hcases : s.data.count '/' = 0 ∨ s.data.count '/' = 1 ∨ s.data.count '/' = 2 := by
        omega
      rcases hcases with h0 | h1 | h2
      · rw [parsePlatform_no_slash s hall (List.count_eq_zero.1 h0)] at h
        simp at h
      · obtain ⟨a, b, hs, ha, hb, _⟩ := exists_join2 s h1
        left
        refine ⟨a, b, hs, ha, hb, ?_⟩
        rw [hs, parsePlatform_join2 a b ha hb] at h
        simp at h
        exact ⟨h.1.symm, h.2.symm⟩
      · obtain ⟨a, b, c, hs, ha, hb, hc, _⟩ := exists_join3 s h2
        right
        refine ⟨a, b, c, hs, ha, hb, hc, ?_⟩
        rw [hs, parsePlatform_join3 a b c ha hb hc] at h
        simp at h
        exact ⟨h.1.symm, h.2.symm⟩
    · rw [parsePlatform_too_many s hge] at h
      simp at h

/-! ## What the error messages contain -/

theorem errExpectedFormat_contains_input (s : String) :
    s.data <:+: (errExpectedFormat s).data :=
  ⟨"failed to parse platform \x27".data, "\x27: expected format os/arch[/variant]".data,
    by simp [errExpectedFormat, String.data_append]⟩

theorem errExpectedFormat_contains_shape (s : String) :
    "os/arch[/variant]".data <:+: (errExpectedFormat s).data := by
  refine ⟨("failed to parse platform \x27" ++ s ++ "\x27: expected format ").data, [], ?_⟩
  have hlit : "\x27: expected format os/arch[/variant]".data
      = "\x27: expected format ".data ++ "os/arch[/variant]".data := by decide
  simp [errExpectedFormat, String.data_append, hlit]

theorem errTooManySlashes_contains_input (s : String) :
    s.data <:+: (errTooManySlashes s).data :=
  ⟨"failed to parse platform \x27".data, "\x27: too many slashes".data,
    by simp [errTooManySlashes, String.data_append]⟩

theorem errTooManySlashes_contains_reason (s : String) :
    "too many slashes".data <:+: (errTooManySlashes s).data := by
  refine ⟨("failed to parse platform \x27" ++ s ++ "\x27: ").data, [], ?_⟩
  have hlit : "\x27: too many slashes".data
      = "\x27: ".data ++ "too many slashes".data := by decide
  simp [errTooManySlashes, String.data_append, hlit]

/-! ## Empty fields -/

theorem parsePlatform_total (s : String) : ∃ r, parsePlatform s = some r := by
  by_cases hall : s = "all"
  · subst hall
    exact ⟨(none, none), by decide⟩
  · rcases Nat.lt_or_ge (s.data.count '/') 3 with hlt | hge
    · have hcases : s.data.count '/' = 0 ∨ s.data.count '/' = 1 ∨ s.data.count '/' = 2 := by
        omega
      rcases hcases with h0 | h1 | h2
      · exact ⟨_, parsePlatform_no_slash s hall (List.count_eq_zero.1 h0)⟩
      · obtain ⟨a, b, hs, ha, hb, _⟩ := exists_join2 s h1
        exact ⟨_, by rw [hs]; exact parsePlatform_join2 a b ha hb⟩
      · obtain ⟨a, b, c, hs, ha, hb, hc, _⟩ := exists_join3 s h2
        exact ⟨_, by rw [hs]; exact parsePlatform_join3 a b c ha hb hc⟩
    · exact ⟨_, parsePlatform_too_many s hge⟩

theorem ne_empty_iff (a : String) : a ≠ "" ↔ a.data ≠ [] := by
  rw [Ne, String.ext_iff]

/-- A piece without `/` followed by anything starts with `/` only if it is
empty. -/
theorem piece_nil_of_head (x y t : List Char) (hx : '/' ∉ x)
    (h : x ++ y = '/' :: t) : x = [] := by
  cases x with
  | nil => rfl
  | cons c cs =>
    simp at h
    exact absurd h.1 (fun e => hx (by simp [e]))

/-- The first field is non-empty exactly when the input does not start with
`/`; `x` is the first piece and `y` the rest of the input after it. -/
theorem first_field_iff (a : String) (y : List Char) (s : String) (ha : '/' ∉ a.data)
    (hs : s.data = a.data ++ '/' :: y) :
    a ≠ "" ↔ ¬ ∃ t : String, s = "/" ++ t := by
  rw [ne_empty_iff]
  constructor
  · rintro hne ⟨t, ht⟩
    rw [String.ext_iff, hs, String.data_append] at ht
    exact hne (piece_nil_of_head a.data _ t.data ha ht)
  · intro hno hnil
    apply hno
    refine ⟨⟨y⟩, ?_⟩
    rw [String.ext_iff, hs, hnil, String.data_append]
    rfl

/-- The second field is non-empty exactly when the first `/` is neither the
last character nor directly followed by another `/`; `y` is what follows the
second piece (nothing, or `/` and the third piece). -/
theorem second_field_iff (a b : String) (y : List Char) (s : String)
    (hb : '/' ∉ b.data) (hy : y = [] ∨ ∃ z, y = '/' :: z)
    (hs : s.data = a.data ++ '/' :: (b.data ++ y)) :
    b ≠ "" ↔ ¬ (s = a ++ "/" ∨ ∃ t : String, s = a ++ "//" ++ t) := by
  rw [ne_empty_iff]
  constructor
  · rintro hne (h1 | ⟨t, ht⟩)
    · rw [String.ext_iff, hs, String.data_append] at h1
      have : b.data ++ y = [] := by
        have h1' : a.data ++ '/' :: (b.data ++ y) = a.data ++ ['/'] := h1
        simpa using h1'
      exact hne (List.append_eq_nil.1 this).1
    · rw [String.ext_iff, hs, String.data_append, String.data_append] at ht
      have ht' : a.data ++ '/' :: (b.data ++ y) = a.data ++ '/' :: '/' :: t.data := by
        rw [ht]
        show _ = a.data ++ ('/' :: '/' :: t.data)
        simp
      have : b.data ++ y = '/' :: t.data := by simpa using ht'
      exact hne (piece_nil_of_head b.data y t.data hb this)
  · intro hno hnil
    apply hno
    rcases hy with rfl | ⟨z, rfl⟩
    · left
      rw [String.ext_iff, hs, hnil, String.data_append]
      rfl
    · right
      refine ⟨⟨z⟩, ?_⟩
      rw [String.ext_iff, hs, hnil, String.data_append, String.data_append]
      show _ = a.data ++ ['/', '/'] ++ z
      simp

/-! ## The claims about `parsePlatform` -/

/-- C1: `parsePlatform("all")` returns no descriptor and no error, `(nil, nil)`.
`parsePlatform` is a function of its argument alone, so this is the result of
every call. -/
theorem C1_parsePlatform_all : parsePlatform "all" = some (none, none) := by
  decide

/-- C2: for every string `s` that is not `"all"` and contains exactly one `/`,
`parsePlatform s` succeeds with the descriptor whose `OS` is the part of `s`
before the `/`, whose `Architecture` is the part after it and whose `Variant`
is empty. -/
theorem C2_parsePlatform_one_separator (s : String) (_hall : s ≠ "all")
    (h : s.data.count '/' = 1) :
    ∃ a b : String, s = a ++ "/" ++ b ∧
      parsePlatform s = some (some { OS := a, Architecture := b, Variant := "" }, none) := by
  obtain ⟨a, b, hs, ha, hb, _⟩ := exists_join2 s h
  exact ⟨a, b, hs, by rw [hs]; exact parsePlatform_join2 a b ha hb⟩

/-- Witness of C2 at `"windows/amd64"`. -/
theorem C2_witness :
    ∃ a b : String, "windows/amd64" = a ++ "/" ++ b ∧
      parsePlatform "windows/amd64"
        = some (some { OS := a, Architecture := b, Variant := "" }, none) :=
  C2_parsePlatform_one_separator "windows/amd64" (by decide) (by decide)

/-- C3: for every string `s` that contains exactly two `/`, `parsePlatform s`
succeeds with the descriptor whose `OS`, `Architecture` and `Variant` are, in
order, the three parts of `s` delimited by the separators. -/
theorem C3_parsePlatform_two_separators (s : String) (h : s.data.count '/' = 2) :
    ∃ a b c : String, s = a ++ "/" ++ b ++ "/" ++ c ∧
      parsePlatform s = some (some { OS := a, Architecture := b, Variant := c }, none) := by
  obtain ⟨a, b, c, hs, ha, hb, hc, _⟩ := exists_join3 s h
  exact ⟨a, b, c, hs, by rw [hs]; exact parsePlatform_join3 a b c ha hb hc⟩

/-- Witness of C3 at `"linux/arm/v7"`. -/
theorem C3_witness :
    ∃ a b c : String, "linux/arm/v7" = a ++ "/" ++ b ++ "/" ++ c ∧
      parsePlatform "linux/arm/v7"
        = some (some { OS := a, Architecture := b, Variant := c }, none) :=
  C3_parsePlatform_two_separators "linux/arm/v7" (by decide)

/-- C4 as stated fails: `"all"` contains zero `/` separators, and
`parsePlatform "all"` returns no error. -/
theorem C4_counterexample :
    "all".data.count '/' = 0 ∧
      ¬ ∃ msg : String, parsePlatform "all" = some (none, some msg) := by
  refine ⟨by decide, ?_⟩
  rintro ⟨msg, h⟩
  have hall : parsePlatform "all" = some (none, none) := by decide
  rw [hall] at h
  simp at h

/-- C4, amended: for every string `s` other than `"all"` that contains zero `/`
or three or more `/`, `parsePlatform s` returns no descriptor and an error (one
of the two malformed-platform errors) whose message contains `s`. -/
theorem C4_parsePlatform_malformed (s : String) (hall : s ≠ "all")
    (h : s.data.count '/' = 0 ∨ 3 ≤ s.data.count '/') :
    ∃ msg : String, parsePlatform s = some (none, some msg) ∧
      (msg = errExpectedFormat s ∨ msg = errTooManySlashes s) ∧
      s.data <:+: msg.data := by
  rcases h with h0 | h3
  · exact ⟨errExpectedFormat s, parsePlatform_no_slash s hall (List.count_eq_zero.1 h0),
      Or.inl rfl, errExpectedFormat_contains_input s⟩
  · exact ⟨errTooManySlashes s, parsePlatform_too_many s h3,
      Or.inr rfl, errTooManySlashes_contains_input s⟩

/-- Witness of C4 (amended) at `"a/b/c/d"`. -/
theorem C4_witness :
    ∃ msg : String, parsePlatform "a/b/c/d" = some (none, some msg) ∧
      (msg = errExpectedFormat "a/b/c/d" ∨ msg = errTooManySlashes "a/b/c/d") ∧
      "a/b/c/d".data <:+: msg.data :=
  C4_parsePlatform_malformed "a/b/c/d" (by decide) (Or.inr (by decide))

/-- C6 as stated fails: the error for `"a/b/c/d"` reads
`failed to parse platform 'a/b/c/d': too many slashes`, which does not contain
the words `too many separators`. -/
theorem C6_counterexample :
    3 < (Split "a/b/c/d" '/').length ∧
      parsePlatform "a/b/c/d"
        = some (none, some "failed to parse platform \x27a/b/c/d\x27: too many slashes") ∧
      ¬ ("too many separators".data <:+:
          "failed to parse platform \x27a/b/c/d\x27: too many slashes".data) := by
  refine ⟨by decide, by decide, by decide⟩

/-- C6, amended: for every string `s` with three or more `/` (so that it splits
into more than 3 parts), `parsePlatform s` returns no descriptor and an error
whose message contains `s` and the words `too many slashes`. -/
theorem C6_parsePlatform_too_many (s : String) (h : 3 ≤ s.data.count '/') :
    3 < (Split s '/').length ∧
      ∃ msg : String, parsePlatform s = some (none, some msg) ∧
        s.data <:+: msg.data ∧ "too many slashes".data <:+: msg.data := by
  refine ⟨?_, errTooManySlashes s, parsePlatform_too_many s h,
    errTooManySlashes_contains_input s, errTooManySlashes_contains_reason s⟩
  simp only [Split, List.length_map, splitChars_length]
  omega

/-- Witness of C6 (amended) at `"a/b/c/d/e"`. -/
theorem C6_witness :
    3 < (Split "a/b/c/d/e" '/').length ∧
      ∃ msg : String, parsePlatform "a/b/c/d/e" = some (none, some msg) ∧
        "a/b/c/d/e".data <:+: msg.data ∧ "too many slashes".data <:+: msg.data :=
  C6_parsePlatform_too_many "a/b/c/d/e" (by decide)

/-- C7: for every string `s` other than `"all"` that contains no `/` (it splits
into the single part `s`, also when `s` is empty), `parsePlatform s` returns no
descriptor and an error whose message contains both `s` and the expected shape
`os/arch[/variant]`. -/
theorem C7_parsePlatform_no_separator (s : String) (hall : s ≠ "all")
    (h : '/' ∉ s.data) :
    Split s '/' = [s] ∧
      ∃ msg : String, parsePlatform s = some (none, some msg) ∧
        s.data <:+: msg.data ∧ "os/arch[/variant]".data <:+: msg.data := by
  refine ⟨?_, errExpectedFormat s, parsePlatform_no_slash s hall h,
    errExpectedFormat_contains_input s, errExpectedFormat_contains_shape s⟩
  simp [Split, splitChars_of_not_mem '/' s.data h]

/-- Witness of C7 at `"bogus"`. -/
theorem C7_witness :
    Split "bogus" '/' = ["bogus"] ∧
      ∃ msg : String, parsePlatform "bogus" = some (none, some msg) ∧
        "bogus".data <:+: msg.data ∧ "os/arch[/variant]".data <:+: msg.data :=
  C7_parsePlatform_no_separator "bogus" (by decide) (by decide)

/-- C5 as stated fails: `parsePlatform "linux//v8"` succeeds with a descriptor
whose `Architecture` is the empty string. -/
theorem C5_counterexample :
    ∃ d : Platform, parsePlatform "linux//v8" = some (some d, none) ∧
      ¬ (d.OS ≠ "" ∧ d.Architecture ≠ "") :=
  ⟨{ OS := "linux", Architecture := "", Variant := "v8" }, by decide, by decide⟩

/-- C5, amended: for every input string `s` on which `parsePlatform` succeeds
with a descriptor `d`, `d.OS` is non-empty exactly when `s` does not begin with
`/`, and `d.Architecture` is non-empty exactly when the `/` after the `OS` part
is neither the last character of `s` nor directly followed by another `/`
(`Variant` may be empty). -/
theorem C5_parsePlatform_nonempty_fields (s : String) (d : Platform) (e : Option String)
    (h : parsePlatform s = some (some d, e)) :
    (d.OS ≠ "" ↔ ¬ ∃ t : String, s = "/" ++ t) ∧
      (d.Architecture ≠ "" ↔
        ¬ (s = d.OS ++ "/" ∨ ∃ t : String, s = d.OS ++ "//" ++ t)) := by
  rcases parsePlatform_descriptor_inv s d e h with
    ⟨a, b, hs, ha, hb, hd, _⟩ | ⟨a, b, c, hs, ha, hb, _, hd, _⟩
  · subst hd
    have hdata : s.data = a.data ++ '/' :: (b.data ++ []) := by
      rw [hs, data_join2]
      simp
    exact ⟨first_field_iff a _ s ha hdata,
      second_field_iff a b [] s hb (Or.inl rfl) hdata⟩
  · subst hd
    have hdata : s.data = a.data ++ '/' :: (b.data ++ '/' :: c.data) := by
      rw [hs, data_join3]
    exact ⟨first_field_iff a _ s ha hdata,
      second_field_iff a b ('/' :: c.data) s hb (Or.inr ⟨_, rfl⟩) hdata⟩

/-- Witness of C5 (amended) at `"linux/arm64/v8"`. -/
theorem C5_witness :
    (("linux" : String) ≠ "" ↔ ¬ ∃ t : String, "linux/arm64/v8" = "/" ++ t) ∧
      (("arm64" : String) ≠ "" ↔
        ¬ ("linux/arm64/v8" = "linux" ++ "/" ∨
            ∃ t : String, "linux/arm64/v8" = "linux" ++ "//" ++ t)) :=
  C5_parsePlatform_nonempty_fields "linux/arm64/v8"
    { OS := "linux", Architecture := "arm64", Variant := "v8" } none (by decide)

/-- C8: `parsePlatform` never panics (on every input each index access
`parts[0]`, `parts[1]`, `parts[2]` it performs is within bounds, so the call
returns), and it never fails because of empty segments: for all segments `a`,
`b`, `c` without `/`, empty or not, `a/b` gives the descriptor `{a, b, ""}` and
`a/b/c` gives `{a, b, c}`. -/
theorem C8_parsePlatform_no_panic :
    (∀ s : String, parsePlatform s ≠ none) ∧
      (∀ a b : String, '/' ∉ a.data → '/' ∉ b.data →
        parsePlatform (a ++ "/" ++ b)
          = some (some { OS := a, Architecture := b, Variant := "" }, none)) ∧
      (∀ a b c : String, '/' ∉ a.data → '/' ∉ b.data → '/' ∉ c.data →
        parsePlatform (a ++ "/" ++ b ++ "/" ++ c)
          = some (some { OS := a, Architecture := b, Variant := c }, none)) := by
  refine ⟨?_, parsePlatform_join2, parsePlatform_join3⟩
  intro s hnone
  obtain ⟨r, hr⟩ := parsePlatform_total s
  rw [hr] at hnone
  exact Option.noConfusion hnone

/-- Witness of C8 at `"linux//v8"`: the empty middle segment is the empty
`Architecture`. -/
theorem C8_witness :
    parsePlatform ("linux" ++ "/" ++ "" ++ "/" ++ "v8")
      = some (some { OS := "linux", Architecture := "", Variant := "v8" }, none) :=
  C8_parsePlatform_no_panic.2.2 "linux" "" "v8" (by decide) (by decide) (by decide)

/-- C10: round trip.  For every input `s` on which `parsePlatform` returns a
descriptor `d`, `s` has one or two separators; joining the fields with `/`
gives `s` back (`OS/Architecture` for one separator, `OS/Architecture/Variant`
for two); and no field of `d` contains a `/`. -/
theorem C10_parsePlatform_round_trip (s : String) (d : Platform) (e : Option String)
    (h : parsePlatform s = some (some d, e)) :
    (s.data.count '/' = 1 ∨ s.data.count '/' = 2) ∧
      (s.data.count '/' = 1 → s = d.OS ++ "/" ++ d.Architecture) ∧
      (s.data.count '/' = 2 → s = d.OS ++ "/" ++ d.Architecture ++ "/" ++ d.Variant) ∧
      '/' ∉ d.OS.data ∧ '/' ∉ d.Architecture.data ∧ '/' ∉ d.Variant.data := by
  rcases parsePlatform_descriptor_inv s d e h with
    ⟨a, b, hs, ha, hb, hd, _⟩ | ⟨a, b, c, hs, ha, hb, hc, hd, _⟩
  · subst hd
    have hcount : s.data.count '/' = 1 := by rw [hs]; exact count_join2 a b ha hb
    refine ⟨Or.inl hcount, fun _ => hs, fun h2 => ?_, ha, hb, List.not_mem_nil _⟩
    omega
  · subst hd
    have hcount : s.data.count '/' = 2 := by rw [hs]; exact count_join3 a b c ha hb hc
    refine ⟨Or.inr hcount, fun h1 => ?_, fun _ => hs, ha, hb, hc⟩
    omega

/-- Witness of C10 at `"linux/arm64/v8"`. -/
theorem C10_witness :
    ("linux/arm64/v8".data.count '/' = 1 ∨ "linux/arm64/v8".data.count '/' = 2) ∧
      ("linux/arm64/v8".data.count '/' = 1 → "linux/arm64/v8" = "linux" ++ "/" ++ "arm64") ∧
      ("linux/arm64/v8".data.count '/' = 2 →
        "linux/arm64/v8" = "linux" ++ "/" ++ "arm64" ++ "/" ++ "v8") ∧
      '/' ∉ "linux".data ∧ '/' ∉ "arm64".data ∧ '/' ∉ "v8".data :=
  C10_parsePlatform_round_trip "linux/arm64/v8"
    { OS := "linux", Architecture := "arm64", Variant := "v8" } none (by decide)

/-! ## The claim about `rootCmd.RunE` -/

/-- C9 as stated fails: with three positional arguments `RunE` returns no
error; it takes the first two as source and destination, parses the platform
and calls the copy operation. -/
theorem C9_counterexample :
    (["src", "dst", "extra"] : List String).length ≠ 2 ∧
      RunE (fun _ _ _ => none)
          { conf := { Source := "", Dest := "", Verbose := false, Platform := "all" },
            trace := [] }
          ["src", "dst", "extra"]
        = some
          ({ conf := { Source := "src", Dest := "dst", Verbose := false, Platform := "all" },
             trace := [Event.progressToStdout, Event.parsePlatformCall "all",
                       Event.copyCall "src" "dst" none] },
           none) := by
  refine ⟨by decide, by decide⟩

/-- C9, amended: the command requires at least two positional arguments.  With
fewer than two (0 or 1) `RunE` returns the argument-validation error and does
nothing else: the state is unchanged, so the platform is not parsed and the
copy operation is not called.  With two or more, `args = src :: dst :: rest`,
the further arguments `rest` are ignored (the run is the run on `[src, dst]`),
`RunE` never panics, and its result is exactly this: `conf.Source = src`,
`conf.Dest = dst`, and the events added to the trace are the progress output,
the debug output when `Verbose`, the parse of `conf.Platform`, and then
nothing more with the parse error returned when the parse fails, or the one
copy call `src`, `dst`, platform with the error of the copy operation returned
when the parse succeeds. -/
theorem C9_RunE_arguments (Copy : String → String → Option Platform → Option String)
    (st : State) (args : List String) :
    (args.length < 2 → RunE Copy st args = some (st, some errMissingArgs)) ∧
      (2 ≤ args.length →
        ∃ (src dst : String) (rest : List String),
          args = src :: dst :: rest ∧
          RunE Copy st args = RunE Copy st [src, dst] ∧
          RunE Copy st args ≠ none ∧
          (∀ p msg, parsePlatform st.conf.Platform = some (p, some msg) →
            RunE Copy st args = some
              ({ conf := { st.conf with Source := src, Dest := dst },
                 trace := st.trace ++ [Event.progressToStdout]
                   ++ (if st.conf.Verbose then [Event.debugToStderr] else [])
                   ++ [Event.parsePlatformCall st.conf.Platform] },
               some msg)) ∧
          (∀ p, parsePlatform st.conf.Platform = some (p, none) →
            RunE Copy st args = some
              ({ conf := { st.conf with Source := src, Dest := dst },
                 trace := st.trace ++ [Event.progressToStdout]
                   ++ (if st.conf.Verbose then [Event.debugToStderr] else [])
                   ++ [Event.parsePlatformCall st.conf.Platform]
                   ++ [Event.copyCall src dst p] },
               Copy src dst p))) := by
  constructor
  · intro hlt
    simp [RunE, hlt]
  · intro hge
    match args, hge with
    | src :: dst :: rest, _ =>
      refine ⟨src, dst, rest, rfl, ?_, ?_, ?_, ?_⟩
      · simp [RunE]
      · obtain ⟨⟨p, e⟩, hr⟩ := parsePlatform_total st.conf.Platform
        have h2 : ¬ (rest.length + 1 + 1 < 2) := by omega
        cases hv : st.conf.Verbose <;> cases e <;> cases hc : Copy src dst p <;>
          simp [RunE, hr, hv, hc, h2]
      · intro p msg hr
        cases hv : st.conf.Verbose <;> simp [RunE, hr, hv]
      · intro p hr
        cases hv : st.conf.Verbose <;> cases hc : Copy src dst p <;>
          simp [RunE, hr, hv, hc]

/-- Witness of C9 (amended) at three arguments, the third one ignored. -/
theorem C9_witness :
    ∃ (src dst : String) (rest : List String),
      ["src", "dst", "extra"] = src :: dst :: rest ∧
      RunE (fun _ _ _ => some "copy failed")
          { conf := { Source := "", Dest := "", Verbose := true, Platform := "linux/amd64" },
            trace := [] }
          ["src", "dst", "extra"]
        = RunE (fun _ _ _ => some "copy failed")
          { conf := { Source := "", Dest := "", Verbose := true, Platform := "linux/amd64" },
            trace := [] }
          [src, dst] ∧
      RunE (fun _ _ _ => some "copy failed")
          { conf := { Source := "", Dest := "", Verbose := true, Platform := "linux/amd64" },
            trace := [] }
          ["src", "dst", "extra"] ≠ none ∧
      (∀ p msg, parsePlatform "linux/amd64" = some (p, some msg) →
        RunE (fun _ _ _ => some "copy failed")
            { conf := { Source := "", Dest := "", Verbose := true, Platform := "linux/amd64" },
              trace := [] }
            ["src", "dst", "extra"]
          = some
            ({ conf := { Source := src, Dest := dst, Verbose := true,
                         Platform := "linux/amd64" },
               trace := [] ++ [Event.progressToStdout]
                 ++ (if true then [Event.debugToStderr] else [])
                 ++ [Event.parsePlatformCall "linux/amd64"] },
             some msg)) ∧
      (∀ p, parsePlatform "linux/amd64" = some (p, none) →
        RunE (fun _ _ _ => some "copy failed")
            { conf := { Source := "", Dest := "", Verbose := true, Platform := "linux/amd64" },
              trace := [] }
            ["src", "dst", "extra"]
          = some
            ({ conf := { Source := src, Dest := dst, Verbose := true,
                         Platform := "linux/amd64" },
               trace := [] ++ [Event.progressToStdout]
                 ++ (if true then [Event.debugToStderr] else [])
                 ++ [Event.parsePlatformCall "linux/amd64"]
                 ++ [Event.copyCall src dst p] },
             (fun _ _ _ => some "copy failed") src dst p)) :=
  (C9_RunE_arguments (fun _ _ _ => some "copy failed")
    { conf := { Source := "", Dest := "", Verbose := true, Platform := "linux/amd64" },
      trace := [] }
    ["src", "dst", "extra"]).2 (by decide)

end Forklift
